import Mathlib

/-!
Shallow embedding of the pascal-interpreter repository (a line-oriented
integer-expression calculator written in Rust) together with proofs about it.

The repository has two source files:
* `src/main.rs` — a lexer plus a direct-evaluating recursive-descent
  interpreter (`Interpreter::{factor, term, expr}` return `i32`).
* `src/ast/ast.rs` — a verbatim copy of the same lexer, a recursive-descent
  parser that builds an AST (`Parser::{factor, term, expr}` return AST nodes),
  and a visitor-style evaluator (`NodeVisitor::visit`).

Strings are embedded as `List Char`; the `i32` values as `Int`, normalised
with `wrap32` after each arithmetic operation (two's-complement wrap-around;
every input considered in the theorems below stays far inside the `i32`
range, so wrap-around never fires there).  Rust panics are embedded as
`Except` errors, one constructor per panic site, named after the error
taxonomy of the specification.  The `while` loops of the source are embedded
as fuel-indexed recursive helpers; each wrapper supplies fuel that dominates
the number of iterations the corresponding Rust loop can make, so the
fuel-exhaustion branch is unreachable on the inputs treated here.
-/

/-- Error kinds.  Each constructor corresponds to one panic site of the Rust
source, named after the error taxonomy in the specification:
* `UnknownCharacter` — `Lexer::get_next_token`, `panic!("unknown syntax {}", ch)`;
* `SyntaxError` — `eat` mismatch (`panic!("unknown syntax")`) and the default
  arm of `factor` (`panic!("syntax error")`);
* `MalformedLiteral` — `value.parse::<i32>().unwrap()` failing;
* `DivisionByZero` — the Rust runtime panic on `i32` division by zero;
* `EmptyInput` — `Lexer::new` unwrapping `text.chars().nth(0)` on empty text;
* `UnwrapNone` — `Option::unwrap` on `None` (only in dead visitor code);
* `Fuel` — artifact of the embedding: recursion fuel ran out (unreachable
  for the fuel amounts supplied by the wrappers on the inputs treated here). -/
inductive Err where
  | UnknownCharacter (c : Char)
  | SyntaxError
  | MalformedLiteral
  | DivisionByZero
  | EmptyInput
  | UnwrapNone
  | Fuel
deriving DecidableEq, Repr

/-- `enum OpType` (identical in `src/main.rs` and `src/ast/ast.rs`). -/
inductive OpType where
  | INTEGER
  | PLUS
  | MINUS
  | MUL
  | DIV
  | LPAREN
  | RPAREN
  | EOF
deriving DecidableEq, Repr

/-- `struct Token { op_type, value }` (identical in both files);
`value: String` is embedded as `List Char`. -/
structure Token where
  op_type : OpType
  value : List Char
deriving DecidableEq, Repr

/-- Two's-complement normalisation to the `i32` range, applied after every
arithmetic operation (Rust release builds wrap; debug builds panic on
overflow, but no input below ever leaves the `i32` range, where both
behaviours coincide with plain integer arithmetic). -/
def wrap32 (n : Int) : Int :=
  (n + 2147483648) % 4294967296 - 2147483648

/-- Decimal value of a digit string, by the usual left fold
(`'0'` has code point 48). -/
def digitsToNat (s : List Char) : Nat :=
  s.foldl (fun a c => 10 * a + (c.toNat - 48)) 0

/-- `value.parse::<i32>()` as used by both `factor`s.  The lexer only ever
produces runs of decimal digits as `INTEGER` token texts, so sign handling is
irrelevant: parsing succeeds exactly on nonempty all-digit strings whose
value fits in `i32` (`≤ 2147483647`), and the `.unwrap()` panic on any other
text is the `MalformedLiteral` error. -/
def parse_i32 (s : List Char) : Except Err Int :=
  if s ≠ [] ∧ s.all Char.isDigit then
    if digitsToNat s ≤ 2147483647 then .ok (Int.ofNat (digitsToNat s))
    else .error .MalformedLiteral
  else .error .MalformedLiteral

/-- `struct Lexer { text, pos, current_char }` (identical in both files). -/
structure Lexer where
  text : List Char
  pos : Nat
  current_char : Option Char
deriving DecidableEq, Repr

namespace Lexer

/-- `Lexer::new`: `current_char = Some(text.chars().nth(0).unwrap())` — the
`unwrap` panics on empty text, hence the `Option` result. -/
def new? (text : List Char) : Option Lexer :=
  match text[0]? with
  | some c => some ⟨text, 0, some c⟩
  | none => none

/-- `Lexer::advance`: step `pos`, set `current_char` to `None` past the end
of the text and to the character at the new `pos` otherwise. -/
def advance (l : Lexer) : Lexer :=
  { text := l.text
    pos := l.pos + 1
    current_char := if l.text.length ≤ l.pos + 1 then none else l.text[l.pos + 1]? }

/-- Loop body of `Lexer::skip_space` (`while current_char == Some(' ')
{ advance }`), fuel-indexed.  Each iteration advances `pos`, so
`text.length + 2` iterations always suffice. -/
def skipGo : Nat → Lexer → Lexer
  | 0, l => l
  | fuel + 1, l =>
    match l.current_char with
    | some ' ' => skipGo fuel l.advance
    | _ => l

/-- `Lexer::skip_space`. -/
def skip_space (l : Lexer) : Lexer :=
  skipGo (l.text.length + 2) l

/-- Loop body of `Lexer::integer_lexer` (`while current_char is a digit
{ push it; advance }`), fuel-indexed.  The Rust code appends to an
accumulator string; consing onto the recursive result yields the same
left-to-right digit run. -/
def intGo : Nat → Lexer → List Char × Lexer
  | 0, l => ([], l)
  | fuel + 1, l =>
    match l.current_char with
    | some ch =>
      if ch.isDigit then
        let r := intGo fuel l.advance
        (ch :: r.1, r.2)
      else ([], l)
    | none => ([], l)

/-- `Lexer::integer_lexer`. -/
def integer_lexer (l : Lexer) : List Char × Lexer :=
  intGo (l.text.length + 2) l

/-- Loop body of `Lexer::get_next_token`, fuel-indexed.  The `while let`
loop re-enters only through the `' '` arm (whose `skip_space; continue`
consumes at least one character), so `text.length + 2` iterations suffice.
The `'\n'` arm is the `break` that falls through to the final
`Token::new(EOF, "")`, leaving the lexer state untouched. -/
def gntGo : Nat → Lexer → Except Err (Token × Lexer)
  | 0, _ => .error .Fuel
  | fuel + 1, l =>
    match l.current_char with
    | none => .ok (⟨.EOF, []⟩, l)
    | some ch =>
      if ch.isDigit then
        let r := l.integer_lexer
        .ok (⟨.INTEGER, r.1⟩, r.2)
      else
        match ch with
        | ' ' => gntGo fuel l.skip_space
        | '+' => .ok (⟨.PLUS, ['+']⟩, l.advance)
        | '-' => .ok (⟨.MINUS, ['-']⟩, l.advance)
        | '*' => .ok (⟨.MUL, ['*']⟩, l.advance)
        | '/' => .ok (⟨.DIV, ['/']⟩, l.advance)
        | '(' => .ok (⟨.LPAREN, ['(']⟩, l.advance)
        | ')' => .ok (⟨.RPAREN, [')']⟩, l.advance)
        | '\n' => .ok (⟨.EOF, []⟩, l)
        | c => .error (.UnknownCharacter c)

/-- `Lexer::get_next_token` (identical in both files). -/
def get_next_token (l : Lexer) : Except Err (Token × Lexer) :=
  gntGo (l.text.length + 2) l

end Lexer

/-! ## `src/main.rs`: the direct-evaluating interpreter -/

namespace Main

/-- `struct Interpreter { lexer, current_token }` of `src/main.rs`. -/
structure Interpreter where
  lexer : Lexer
  current_token : Token
deriving DecidableEq, Repr

/-- `Interpreter::new`: fetch the first token from the lexer. -/
def Interpreter.new (l : Lexer) : Except Err Interpreter := do
  let r ← l.get_next_token
  pure ⟨r.2, r.1⟩

/-- `Interpreter::eat`: on a kind match, pull the next token from the lexer;
on a mismatch, `panic!("unknown syntax")` (a syntax error). -/
def Interpreter.eat (i : Interpreter) (op_type : OpType) : Except Err Interpreter :=
  if i.current_token.op_type = op_type then do
    let r ← i.lexer.get_next_token
    pure ⟨r.2, r.1⟩
  else .error .SyntaxError

mutual

/-- `Interpreter::factor` of `src/main.rs`: an `INTEGER` token is parsed
(first) and eaten (second), a parenthesised group recurses into `expr`;
anything else is `panic!("syntax error")`. -/
def Interpreter.factor : Nat → Interpreter → Except Err (Int × Interpreter)
  | 0, _ => .error .Fuel
  | fuel + 1, i =>
    match i.current_token.op_type with
    | .INTEGER => do
      let res ← parse_i32 i.current_token.value
      let i ← i.eat .INTEGER
      pure (res, i)
    | .LPAREN => do
      let i ← i.eat .LPAREN
      let r ← Interpreter.expr fuel i
      let i ← r.2.eat .RPAREN
      pure (r.1, i)
    | _ => .error .SyntaxError

/-- The `while MUL || DIV` loop of `Interpreter::term`: `res *= factor()` /
`res /= factor()`, with the Rust division-by-zero panic made explicit and
`Int.tdiv` for Rust's round-toward-zero `i32` division. -/
def Interpreter.termLoop : Nat → Int → Interpreter → Except Err (Int × Interpreter)
  | 0, _, _ => .error .Fuel
  | fuel + 1, res, i =>
    match i.current_token.op_type with
    | .MUL => do
      let i ← i.eat .MUL
      let r ← Interpreter.factor fuel i
      Interpreter.termLoop fuel (wrap32 (res * r.1)) r.2
    | .DIV => do
      let i ← i.eat .DIV
      let r ← Interpreter.factor fuel i
      if r.1 = 0 then .error .DivisionByZero
      else Interpreter.termLoop fuel (wrap32 (Int.tdiv res r.1)) r.2
    | _ => pure (res, i)

/-- `Interpreter::term` of `src/main.rs`. -/
def Interpreter.term : Nat → Interpreter → Except Err (Int × Interpreter)
  | 0, _ => .error .Fuel
  | fuel + 1, i => do
    let r ← Interpreter.factor fuel i
    Interpreter.termLoop fuel r.1 r.2

/-- The `while PLUS || MINUS` loop of `Interpreter::expr`:
`res += term()` / `res -= term()`. -/
def Interpreter.exprLoop : Nat → Int → Interpreter → Except Err (Int × Interpreter)
  | 0, _, _ => .error .Fuel
  | fuel + 1, res, i =>
    match i.current_token.op_type with
    | .PLUS => do
      let i ← i.eat .PLUS
      let r ← Interpreter.term fuel i
      Interpreter.exprLoop fuel (wrap32 (res + r.1)) r.2
    | .MINUS => do
      let i ← i.eat .MINUS
      let r ← Interpreter.term fuel i
      Interpreter.exprLoop fuel (wrap32 (res - r.1)) r.2
    | _ => pure (res, i)

/-- `Interpreter::expr` of `src/main.rs`. -/
def Interpreter.expr : Nat → Interpreter → Except Err (Int × Interpreter)
  | 0, _ => .error .Fuel
  | fuel + 1, i => do
    let r ← Interpreter.term fuel i
    Interpreter.exprLoop fuel r.1 r.2

end

end Main

/-- The per-line pipeline that `main()` in `src/main.rs` runs on one input
line (the specification's core entry point `evaluate`): build a lexer, build
an interpreter (fetching the first token), run `expr`, and return its result;
the token the interpreter holds when `expr` finishes is ignored.  The fuel
`4 * length + 16` dominates the recursion depth and loop iterations of the
recursive descent, every call of which consumes at least one input token. -/
def evaluate (line : List Char) : Except Err Int :=
  match Lexer.new? line with
  | none => .error .EmptyInput
  | some lx => do
    let i ← Main.Interpreter.new lx
    let r ← Main.Interpreter.expr (4 * line.length + 16) i
    pure r.1

/-! ## `src/ast/ast.rs`: the AST-building parser and the visitor evaluator

`OpType`, `Token` and `Lexer` are duplicated verbatim in `src/ast/ast.rs`;
the definitions above embed both copies. -/

namespace Ast

/-- The AST node model of `src/ast/ast.rs`: the `AstNode` trait with its two
implementors `Num { op_type, value }` and
`BinOp { op_type, left, right }` (the `Rc` pointers form a strict tree, so
plain constructor children are a faithful embedding). -/
inductive AstNode where
  | Num (op_type : OpType) (value : Int)
  | BinOp (op_type : OpType) (left : AstNode) (right : AstNode)
deriving DecidableEq, Repr

/-- `AstNode::get_op_type`, implemented by both variants. -/
def AstNode.get_op_type : AstNode → OpType
  | .Num op _ => op
  | .BinOp op _ _ => op

/-- `AstNode::get_left`: trait default `None`, overridden by `BinOp`. -/
def AstNode.get_left : AstNode → Option AstNode
  | .BinOp _ l _ => some l
  | .Num _ _ => none

/-- `AstNode::get_right`: trait default `None`, overridden by `BinOp`. -/
def AstNode.get_right : AstNode → Option AstNode
  | .BinOp _ _ r => some r
  | .Num _ _ => none

/-- `AstNode::get_value`: trait default `None`, overridden by `Num`. -/
def AstNode.get_value : AstNode → Option Int
  | .Num _ v => some v
  | .BinOp _ _ _ => none

/-- `struct Parser { lexer, current_token }` of `src/ast/ast.rs`. -/
structure Parser where
  lexer : Lexer
  current_token : Token
deriving DecidableEq, Repr

/-- `Parser::new`: fetch the first token from the lexer. -/
def Parser.new (l : Lexer) : Except Err Parser := do
  let r ← l.get_next_token
  pure ⟨r.2, r.1⟩

/-- `Parser::eat`, same as `Interpreter::eat` in `src/main.rs`. -/
def Parser.eat (p : Parser) (op_type : OpType) : Except Err Parser :=
  if p.current_token.op_type = op_type then do
    let r ← p.lexer.get_next_token
    pure ⟨r.2, r.1⟩
  else .error .SyntaxError

mutual

/-- `Parser::factor` of `src/ast/ast.rs`.  NOTE (faithful to the source,
lines 189–192): in the `INTEGER` arm the token is eaten FIRST, and the `Num`
node is then built from the NEW current token — its `op_type` and the
`i32`-parse of its text. -/
def Parser.factor : Nat → Parser → Except Err (AstNode × Parser)
  | 0, _ => .error .Fuel
  | fuel + 1, p =>
    match p.current_token.op_type with
    | .INTEGER => do
      let p ← p.eat .INTEGER
      let v ← parse_i32 p.current_token.value
      pure (.Num p.current_token.op_type v, p)
    | .LPAREN => do
      let p ← p.eat .LPAREN
      let r ← Parser.expr fuel p
      let p ← r.2.eat .RPAREN
      pure (r.1, p)
    | _ => .error .SyntaxError

/-- The `while MUL || DIV` loop of `Parser::term`.  NOTE (faithful to the
source, line 216): `op_type` is read from the current token AFTER the
operator has been eaten, i.e. from the token following the operator. -/
def Parser.termLoop : Nat → AstNode → Parser → Except Err (AstNode × Parser)
  | 0, _, _ => .error .Fuel
  | fuel + 1, node, p =>
    match p.current_token.op_type with
    | .MUL => do
      let p ← p.eat .MUL
      let op := p.current_token.op_type
      let r ← Parser.factor fuel p
      Parser.termLoop fuel (.BinOp op node r.1) r.2
    | .DIV => do
      let p ← p.eat .DIV
      let op := p.current_token.op_type
      let r ← Parser.factor fuel p
      Parser.termLoop fuel (.BinOp op node r.1) r.2
    | _ => pure (node, p)

/-- `Parser::term` of `src/ast/ast.rs`. -/
def Parser.term : Nat → Parser → Except Err (AstNode × Parser)
  | 0, _ => .error .Fuel
  | fuel + 1, p => do
    let r ← Parser.factor fuel p
    Parser.termLoop fuel r.1 r.2

/-- The `while PLUS || MINUS` loop of `Parser::expr`, with the same
read-`op_type`-after-eating slip as `Parser::term` (line 238). -/
def Parser.exprLoop : Nat → AstNode → Parser → Except Err (AstNode × Parser)
  | 0, _, _ => .error .Fuel
  | fuel + 1, node, p =>
    match p.current_token.op_type with
    | .PLUS => do
      let p ← p.eat .PLUS
      let op := p.current_token.op_type
      let r ← Parser.term fuel p
      Parser.exprLoop fuel (.BinOp op node r.1) r.2
    | .MINUS => do
      let p ← p.eat .MINUS
      let op := p.current_token.op_type
      let r ← Parser.term fuel p
      Parser.exprLoop fuel (.BinOp op node r.1) r.2
    | _ => pure (node, p)

/-- `Parser::expr` of `src/ast/ast.rs`. -/
def Parser.expr : Nat → Parser → Except Err (AstNode × Parser)
  | 0, _ => .error .Fuel
  | fuel + 1, p => do
    let r ← Parser.term fuel p
    Parser.exprLoop fuel r.1 r.2

end

/-- The AST-building front half of the `src/ast/ast.rs` pipeline: lexer,
parser, `Parser::expr` on one input line. -/
def parse (line : List Char) : Except Err AstNode :=
  match Lexer.new? line with
  | none => .error .EmptyInput
  | some lx => do
    let p ← Parser.new lx
    let r ← Parser.expr (4 * line.length + 16) p
    pure r.1

/-- `Option::unwrap` lifted to the error monad (`None` is a panic). -/
def unwrapO : Option α → Except Err α
  | some a => .ok a
  | none => .error .UnwrapNone

/-- `NodeVisitor::visit` as `struct Interpreter` of `src/ast/ast.rs` runs it:
the trait's default body `{ 0 }` (the `TODO` dispatch is unwritten and
`impl NodeVisitor for Interpreter {}` overrides nothing), so every visit
returns `0` and never dispatches to `visit_BinOp` / `visit_Num`. -/
def Interpreter.visit (node : AstNode) : Int := 0

/-- `Interpreter::visit_BinOp` of `src/ast/ast.rs` (dead code: `visit` never
calls it).  Its recursive child evaluations go through `visit`, hence always
`0`; on a `DIV` node the Rust `0 / 0` would panic with division by zero. -/
def Interpreter.visit_BinOp (node : AstNode) : Except Err Int :=
  match node.get_op_type with
  | .PLUS => do
    let l ← unwrapO node.get_left
    let r ← unwrapO node.get_right
    pure (wrap32 (Interpreter.visit l + Interpreter.visit r))
  | .MINUS => do
    let l ← unwrapO node.get_left
    let r ← unwrapO node.get_right
    pure (wrap32 (Interpreter.visit l - Interpreter.visit r))
  | .MUL => do
    let l ← unwrapO node.get_left
    let r ← unwrapO node.get_right
    pure (wrap32 (Interpreter.visit l * Interpreter.visit r))
  | .DIV => do
    let l ← unwrapO node.get_left
    let r ← unwrapO node.get_right
    if Interpreter.visit r = 0 then .error .DivisionByZero
    else pure (wrap32 (Int.tdiv (Interpreter.visit l) (Interpreter.visit r)))
  | _ => .error .SyntaxError

/-- `Interpreter::visit_Num` of `src/ast/ast.rs` (dead code: `visit` never
calls it). -/
def Interpreter.visit_Num (node : AstNode) : Except Err Int :=
  unwrapO node.get_value

end Ast

/-- The whole `src/ast/ast.rs` pipeline on one input line: parse to an AST,
then evaluate it with the visitor (`Interpreter::visit` on the root). -/
def astEvaluate (line : List Char) : Except Err Int := do
  let node ← Ast.parse line
  pure (Ast.Interpreter.visit node)

deriving instance DecidableEq for Except

/-! ## Lexer lemmas -/

/-- `get_next_token` on an exhausted lexer (`current_char = None`): the
`while let` loop is skipped and the terminal `EOF` token is produced without
touching the state. -/
theorem Lexer.gnt_none (l : Lexer) (h : l.current_char = none) :
    l.get_next_token = .ok (⟨.EOF, []⟩, l) := by
  obtain ⟨text, pos, cc⟩ := l
  cases h
  rfl

/-- `get_next_token` when the current character is a newline: the `'\n'` arm
breaks out of the loop and the terminal `EOF` token is produced without
touching the state. -/
theorem Lexer.gnt_newline (l : Lexer) (h : l.current_char = some '\n') :
    l.get_next_token = .ok (⟨.EOF, []⟩, l) := by
  obtain ⟨text, pos, cc⟩ := l
  cases h
  rfl

/-- `advance` maintains the cursor invariant: afterwards `current_char` is
the character of `text` at the new position (`none` past the end). -/
theorem Lexer.advance_current (l : Lexer) :
    (l.advance).current_char = l.text[l.pos + 1]? := by
  unfold Lexer.advance
  dsimp only
  split
  · exact (List.getElem?_eq_none (by assumption)).symm
  · rfl

/-- The digit loop of `integer_lexer`, run with enough fuel on a cursor
obeying the invariant, consumes exactly the maximal digit run starting at
`pos` and stops on the first non-digit; when the whole rest of the text is
digits it consumes it all, ending exhausted at `pos = text.length`. -/
theorem Lexer.intGo_all_digits :
    ∀ (fuel : Nat) (l : Lexer), l.pos ≤ l.text.length →
    l.text.length - l.pos < fuel →
    l.current_char = l.text[l.pos]? →
    (l.text.drop l.pos).all Char.isDigit = true →
    Lexer.intGo fuel l = (l.text.drop l.pos, ⟨l.text, l.text.length, none⟩) := by
  intro fuel
  induction fuel with
  | zero => intro l _ h2 _ _; omega
  | succ fuel ih =>
    intro l hle hfuel hcur hdig
    obtain ⟨text, pos, cc⟩ := l
    dsimp only at hle hfuel hcur hdig ⊢
    rcases Nat.eq_or_lt_of_le hle with heq | hlt
    · subst heq
      have hnone : text[text.length]? = none := List.getElem?_eq_none (Nat.le_refl _)
      rw [hnone] at hcur
      subst hcur
      simp [Lexer.intGo, List.drop_length]
    · have hsome : text[pos]? = some (text[pos]) := List.getElem?_eq_getElem hlt
      rw [hsome] at hcur
      subst hcur
      have hcons : text[pos] :: text.drop (pos + 1) = text.drop pos :=
        List.getElem_cons_drop _ _ hlt
      rw [← hcons] at hdig
      simp only [List.all_cons, Bool.and_eq_true] at hdig
      have hrec := ih (Lexer.advance ⟨text, pos, some (text[pos])⟩)
        (by dsimp [Lexer.advance]; omega)
        (by dsimp [Lexer.advance]; omega)
        (Lexer.advance_current ⟨text, pos, some (text[pos])⟩)
        (by dsimp [Lexer.advance]; exact hdig.2)
      simp only [Lexer.intGo, hdig.1, if_true]
      rw [hrec, ← hcons]
      dsimp [Lexer.advance]

/-- `get_next_token` when the current character is a decimal digit: the
digit branch fires immediately and returns the `INTEGER` token produced by
`integer_lexer`, together with the lexer state `integer_lexer` leaves. -/
theorem Lexer.gnt_digit (l : Lexer) (c : Char) (hc : l.current_char = some c)
    (hd : c.isDigit = true) :
    l.get_next_token = .ok (⟨.INTEGER, (l.integer_lexer).1⟩, (l.integer_lexer).2) := by
  obtain ⟨text, pos, cc⟩ := l
  cases hc
  have e : text.length + 2 = text.length + 1 + 1 := rfl
  unfold Lexer.get_next_token
  dsimp only
  rw [e]
  simp only [Lexer.gntGo, hd, if_true]

/-- Running `Interpreter::expr` (with at least three units of fuel) from the
state "current token is `INTEGER` with all-digit text `d` fitting in `i32`,
lexer exhausted": `factor` parses the literal and eats it, the `term` and
`expr` loops see `EOF` and exit, and the value of `d` is returned. -/
theorem Main.Interpreter.expr_single_int (fuel : Nat) (d : List Char)
    (hne : d ≠ []) (hdig : d.all Char.isDigit = true)
    (hle : digitsToNat d ≤ 2147483647) (lx : Lexer) (hlx : lx.current_char = none) :
    Main.Interpreter.expr (fuel + 3) ⟨lx, ⟨.INTEGER, d⟩⟩ =
      .ok (Int.ofNat (digitsToNat d), ⟨lx, ⟨.EOF, []⟩⟩) := by
  have hparse : parse_i32 d = .ok (Int.ofNat (digitsToNat d)) := by
    unfold parse_i32
    rw [if_pos ⟨hne, hdig⟩, if_pos hle]
  have heat : Main.Interpreter.eat ⟨lx, ⟨.INTEGER, d⟩⟩ .INTEGER =
      .ok ⟨lx, ⟨.EOF, []⟩⟩ := by
    unfold Main.Interpreter.eat
    rw [if_pos rfl, Lexer.gnt_none lx hlx]
    rfl
  show Main.Interpreter.expr (fuel + 2 + 1) _ = _
  simp only [Main.Interpreter.expr, Main.Interpreter.term, Main.Interpreter.factor,
    Main.Interpreter.termLoop, Main.Interpreter.exprLoop, hparse, heat]
  rfl

/-! ## Claim theorems -/

/-- Claim C1 (refuted by the code): the two pipelines do NOT agree.  On the
input line consisting of the single digit 2, the direct interpreter of
`src/main.rs` returns 2, while the AST pipeline of `src/ast/ast.rs` aborts
with the literal-parse panic (its `factor` eats the `INTEGER` token first and
then parses the text of the FOLLOWING token, here the empty text of `EOF`).
Moreover its evaluator half is also broken: `NodeVisitor::visit` is the
trait default returning 0, so even the tree for 2 + 3 evaluates to 0. -/
theorem claimC1_pipelines_diverge :
    evaluate ("2".toList) = .ok 2 ∧
    astEvaluate ("2".toList) = .error .MalformedLiteral ∧
    Ast.Interpreter.visit (.BinOp .PLUS (.Num .INTEGER 2) (.Num .INTEGER 3)) = 0 :=
  ⟨by decide, by decide, rfl⟩

/-- Claim C2 (refuted by the code): from the parser state "current token is
`INTEGER` with text 2, lexer exhausted", `Parser::factor` of `src/ast/ast.rs`
does NOT return a `Num` node holding 2 — it eats the token first, then
parses the text of the new current token (`EOF`, empty text), so the
`unwrap` of `parse::<i32>` panics.  The `Interpreter::factor` of
`src/main.rs` handles the identical state as the claim describes. -/
theorem claimC2_ast_factor_misreads_literal :
    Ast.Parser.factor 5 ⟨⟨['2'], 1, none⟩, ⟨.INTEGER, ['2']⟩⟩ =
      .error .MalformedLiteral ∧
    Main.Interpreter.factor 5 ⟨⟨['2'], 1, none⟩, ⟨.INTEGER, ['2']⟩⟩ =
      .ok (2, ⟨⟨['2'], 1, none⟩, ⟨.EOF, []⟩⟩) :=
  ⟨by decide, by decide⟩

/-- Claim C3 (refuted by the code): `Parser::term` of `src/ast/ast.rs` never
folds 2 * 3 into a `BinaryOp` at all — it reads the operator tag from the
token AFTER eating the operator, and its `factor` misreads the literal
token, so the parse aborts with the literal-parse panic before any `BinOp`
is constructed; the direct interpreter of `src/main.rs` evaluates the same
input to 6. -/
theorem claimC3_ast_term_never_builds_binop :
    Ast.parse ("2 * 3".toList) = .error .MalformedLiteral ∧
    evaluate ("2 * 3".toList) = .ok 6 :=
  ⟨by decide, by decide⟩

/-- Claim C4: multiplication binds tighter than addition, and parentheses
override the precedence. -/
theorem claimC4_precedence :
    evaluate ("2 + 3 * 4".toList) = .ok 14 ∧
    evaluate ("(2 + 3) * 4".toList) = .ok 20 :=
  ⟨by decide, by decide⟩

/-- Claim C5: same-precedence chains group to the left. -/
theorem claimC5_left_associativity :
    evaluate ("8 - 3 - 2".toList) = .ok 3 ∧
    evaluate ("8 / 4 / 2".toList) = .ok 1 :=
  ⟨by decide, by decide⟩

/-- Claim C6: division is truncating integer division (toward zero, also on
a negative dividend), and a zero right operand aborts the evaluation with
the division-by-zero error instead of producing a value. -/
theorem claimC6_division_truncates_and_zero_fails :
    evaluate ("7 / 2".toList) = .ok 3 ∧
    evaluate ("(0 - 7) / 2".toList) = .ok (-3) ∧
    evaluate ("7 / 0".toList) = .error .DivisionByZero :=
  ⟨by decide, by decide, by decide⟩

/-- Claim C8: the three malformed inputs abort with the documented error
kinds and return no value. -/
theorem claimC8_malformed_inputs_fail :
    evaluate ("(2 + 3".toList) = .error .SyntaxError ∧
    evaluate ("2 + ".toList) = .error .SyntaxError ∧
    evaluate ("2 # 3".toList) = .error (.UnknownCharacter '#') :=
  ⟨by decide, by decide, by decide⟩

/-- Claim C9 (refuted by the code): on the input line 2 3 — a well-formed
expression followed by trailing garbage — `evaluate` does NOT fail with a
syntax error; `Interpreter::expr` simply stops at the first token that
cannot extend the expression and the value of the leading expression is
returned. -/
theorem claimC9_counterexample_trailing_garbage_ok :
    evaluate ("2 3".toList) = .ok 2 := by decide

/-- Claim C9 as amended: the interpreter performs no end-of-input check, so
an input line consisting of a well-formed expression followed by trailing
garbage yields the value of the leading expression (three instances: a
trailing integer, several trailing tokens, a trailing right parenthesis). -/
theorem claimC9_amended_trailing_garbage_ignored :
    evaluate ("2 3".toList) = .ok 2 ∧
    evaluate ("2 3 4 + ( 5".toList) = .ok 2 ∧
    evaluate ("(2 + 3) * 4 )".toList) = .ok 20 :=
  ⟨by decide, by decide, by decide⟩

/-- Claim C7 (refuted as universally stated): the all-digit input line
2147483648 — one more than the largest `i32` — does not evaluate to its
integer value; `parse::<i32>().unwrap()` panics on it. -/
theorem claimC7_counterexample_overflow :
    evaluate ("2147483648".toList) = .error .MalformedLiteral := by decide

/-- Claim C7 as amended: for every nonempty sequence of decimal digits `d`
whose value fits in `i32` (at most 2147483647), given as the whole input
line, `evaluate d` returns the integer value denoted by `d`. -/
theorem claimC7_digits_evaluate_to_value (d : List Char) (hne : d ≠ [])
    (hdig : d.all Char.isDigit = true) (hle : digitsToNat d ≤ 2147483647) :
    evaluate d = .ok (Int.ofNat (digitsToNat d)) := by
  have hpos : 0 < d.length := List.length_pos.mpr hne
  have hc0 : d[0]? = some (d[0]) := List.getElem?_eq_getElem hpos
  have hcd : (d[0]).isDigit = true := by
    have := List.all_eq_true.mp hdig
    exact this _ (List.getElem_mem hpos)
  have hnew : Lexer.new? d = some ⟨d, 0, some (d[0])⟩ := by
    unfold Lexer.new?
    rw [hc0]
  have hint : Lexer.integer_lexer ⟨d, 0, some (d[0])⟩ = (d, ⟨d, d.length, none⟩) := by
    have h := Lexer.intGo_all_digits (d.length + 2) ⟨d, 0, some (d[0])⟩
      (Nat.zero_le _) (by dsimp only; omega) (by dsimp only; exact hc0.symm)
      (by dsimp only; rw [List.drop_zero]; exact hdig)
    unfold Lexer.integer_lexer
    dsimp only at h ⊢
    rw [h, List.drop_zero]
  have hgnt := Lexer.gnt_digit ⟨d, 0, some (d[0])⟩ (d[0]) rfl hcd
  rw [hint] at hgnt
  have hInterp : Main.Interpreter.new ⟨d, 0, some (d[0])⟩ =
      .ok ⟨⟨d, d.length, none⟩, ⟨.INTEGER, d⟩⟩ := by
    unfold Main.Interpreter.new
    rw [hgnt]
    rfl
  have hexpr := Main.Interpreter.expr_single_int (4 * d.length + 13) d hne hdig hle
    ⟨d, d.length, none⟩ rfl
  have e4 : 4 * d.length + 16 = 4 * d.length + 13 + 3 := rfl
  unfold evaluate
  rw [hnew]
  show (do
    let i ← Main.Interpreter.new ⟨d, 0, some (d[0])⟩
    let r ← Main.Interpreter.expr (4 * d.length + 16) i
    pure r.1 : Except Err Int) = _
  rw [hInterp, e4]
  show (do
    let r ← Main.Interpreter.expr (4 * d.length + 13 + 3) ⟨⟨d, d.length, none⟩, ⟨.INTEGER, d⟩⟩
    pure r.1 : Except Err Int) = _
  rw [hexpr]
  rfl

/-- Concrete instance of the amended claim C7: the digit line 42 evaluates
to 42. -/
theorem claimC7_digits_evaluate_to_value_witness :
    evaluate ("42".toList) = .ok 42 :=
  claimC7_digits_evaluate_to_value ("42".toList) (by decide) (by decide) (by decide)

/-- Claim C10: from a terminal lexer state — the text exhausted
(`current_char = None`) or a newline as the current character — a call to
`get_next_token` returns the end-of-input token and returns the very same
lexer state (position and current character untouched); hence every
subsequent call does the same, indefinitely. -/
theorem claimC10_eof_idempotent (l : Lexer)
    (h : l.current_char = none ∨ l.current_char = some '\n') :
    l.get_next_token = .ok (⟨.EOF, []⟩, l) := by
  rcases h with h | h
  · exact Lexer.gnt_none l h
  · exact Lexer.gnt_newline l h

/-- Concrete instance of claim C10: an exhausted lexer over the text 2
yields `EOF` and is left unchanged. -/
theorem claimC10_eof_idempotent_witness :
    Lexer.get_next_token ⟨['2'], 1, none⟩ = .ok (⟨.EOF, []⟩, ⟨['2'], 1, none⟩) :=
  claimC10_eof_idempotent ⟨['2'], 1, none⟩ (Or.inl rfl)
